import Mathlib

/-!
# Verification of the `wstd` async-runtime and HTTP core

Shallow embedding of the parts of the `wstd` crate that the claims concern:

* `src/io/streams.rs` — `AsyncInputStream::read`, `AsyncOutputStream::write`
* `src/http/body.rs`  — `Body::send`, `Body::contents`, `Body::content_length`,
  `BodyHint::from_headers`, `IncomingBody::poll_frame`
* `src/http/server.rs` — `Responder::fail`
* `src/runtime/block_on.rs` — `block_on` re-entrancy behavior
* `src/time/mod.rs` — `SystemTime::duration_since`

The host (WASI) is modelled by explicit oracles: each host call that an
operation performs consumes one element of a list of pre-decided host
responses, or reads a fixed response value for calls performed at most once.
Machine integers (`u64`, `u32`, `usize`) are modelled as `Nat`; none of the
verified code paths perform wrapping arithmetic. Byte buffers are `List Nat`.
-/

namespace Wstd

/-- `wasip2::io::streams::StreamError`. -/
inductive StreamError
  | closed
  | lastOperationFailed (debug : String)
deriving DecidableEq, Repr

/-- The `std::io::Error` values the stream adapters construct: either
`std::io::Error::other(msg)` with a host debug string, or
`std::io::Error::from(std::io::ErrorKind::ConnectionReset)`. -/
inductive IOErr
  | connectionReset
  | other (msg : String)
deriving DecidableEq, Repr

/-- WASI `Fields` (host header list), modelled as name/value pairs. -/
abbrev Fields := List (String × String)

/-- `http::HeaderMap`, modelled as a list of name/value pairs whose names are
already normalized to lowercase (as the `http` crate guarantees). -/
abbrev HeaderMap := List (String × String)

/-- Representative constructors of `wasip2::http::types::ErrorCode`.  The host
error-code enum is external to the repository; only `internalError` is
distinguished by the code under verification, the remaining constructors stand
in for all other host codes. -/
inductive ErrorCode
  | internalError (msg : Option String)
  | connectionTimeout
  | httpResponseTimeout
  | httpProtocolError
deriving DecidableEq, Repr

/-- `crate::http::Error`, i.e. `anyhow::Error`: a payload — a plain message,
a converted `std::io::Error`, a host `ErrorCode`, or `InvalidContentLength` —
optionally wrapped in `.context` layers added by the `Context` trait. -/
inductive Error
  | msg (s : String)
  | io (e : IOErr)
  | code (c : ErrorCode)
  | invalidContentLength
  | context (ctx : String) (inner : Error)
deriving DecidableEq, Repr

/-- `anyhow::Error::downcast_ref::<ErrorCode>()`: looks through the `context`
layers that `anyhow` itself added and returns the payload when it is a host
`ErrorCode`. -/
def Error.downcastErrorCode : Error → Option ErrorCode
  | .code c => some c
  | .context _ inner => inner.downcastErrorCode
  | _ => none

/-- The `Display` text of the outermost layer of an `anyhow::Error`
(a context layer displays as its context string). -/
def Error.message : Error → String
  | .msg s => s
  | .io .connectionReset => "connection reset"
  | .io (.other m) => m
  | .code (.internalError none) => "internal error"
  | .code (.internalError (some m)) => m
  | .code .connectionTimeout => "connection timeout"
  | .code .httpResponseTimeout => "HTTP response timeout"
  | .code .httpProtocolError => "HTTP protocol error"
  | .invalidContentLength => "Invalid Content-Length header"
  | .context ctx _ => ctx

/-- Models `format!("{err:?}")` on an `anyhow::Error`: the outermost message
followed by the chain of causes. -/
def Error.debugString : Error → String
  | .context ctx inner => ctx ++ "\n\nCaused by:\n    " ++ inner.debugString
  | e => e.message

/-! ## `AsyncInputStream::read` (src/io/streams.rs lines 51-74)

The host oracle is the list of successive results of `self.stream.read(n)`;
the loop awaits readiness before each host read (readiness itself returns no
data and is not observable in the result).  The model returns `none` when the
oracle is exhausted while the loop is still running (the call is still
pending), and otherwise the returned `std::io::Result<usize>` together with
the final contents of `buf` (`buf[0..len].copy_from_slice(&read)`). -/

def AsyncInputStream.read (host : List (Except StreamError (List Nat)))
    (buf : List Nat) : Option (Except IOErr (Nat × List Nat)) :=
  match host with
  | [] => none
  | r :: rest =>
    match r with
    | .ok bs =>
      if bs.isEmpty then
        -- empty host read is not EOF: loop through readiness and retry
        AsyncInputStream.read rest buf
      else
        some (.ok (bs.length, bs ++ buf.drop bs.length))
    | .error .closed => some (.ok (0, buf))
    | .error (.lastOperationFailed m) => some (.error (.other m))

/-! ## `AsyncOutputStream::write` (src/io/streams.rs lines 265-294)

`checks` is the oracle of successive `self.stream.check_write()` results (one
is consumed per loop iteration); `writeRes` is the result of the single
`self.stream.write(..)` call the function performs before returning.  The
result carries the returned count together with the byte slice passed to the
host write (`&buf[0..writable]`). -/

def AsyncOutputStream.write (checks : List (Except StreamError Nat))
    (writeRes : Except StreamError Unit) (buf : List Nat) :
    Option (Except IOErr (Nat × List Nat)) :=
  match checks with
  | [] => none
  | c :: rest =>
    match c with
    | .ok 0 =>
      -- `self.ready().await` then `continue`
      AsyncOutputStream.write rest writeRes buf
    | .ok k =>
      let writable := min k buf.length
      match writeRes with
      | .ok () => some (.ok (writable, buf.take writable))
      | .error .closed => some (.error .connectionReset)
      | .error (.lastOperationFailed m) => some (.error (.other m))
    | .error .closed => some (.error .connectionReset)
    | .error (.lastOperationFailed m) => some (.error (.other m))

/-! ## `block_on` (src/runtime/block_on.rs)

`REACTOR` is a process-wide cell holding `Option<Reactor>`; reactors are
identified by a `Nat`.  `block_on` replaces the cell with a fresh reactor,
panics if the previous value was occupied (before spawning or polling the
future), and otherwise drives the future and clears the cell on exit. -/

/-- Observable outcome of one `block_on` call: the value the `REACTOR`
singleton holds while the body of `block_on` executes, whether the argument
future was ever run, and either the panic message or the produced output
paired with the singleton's value at exit. -/
structure BlockOnTrace (α : Type) where
  singletonDuringRun : Option Nat
  ranFuture : Bool
  outcome : Except String (α × Option Nat)
deriving Repr

def block_on {α : Type} (prevReactor : Option Nat) (freshReactor : Nat)
    (fut : Unit → α) : BlockOnTrace α :=
  -- let prev = REACTOR.replace(Some(reactor));
  if prevReactor.isSome then
    -- if prev.is_some() { panic!(..) } — before the future is spawned
    ⟨some freshReactor, false,
      .error "cannot wstd::runtime::block_on inside an existing block_on!"⟩
  else
    -- run the executor loop to completion, then REACTOR.replace(None)
    ⟨some freshReactor, true, .ok (fut (), none)⟩

/-! ## `SystemTime::duration_since` (src/time/mod.rs lines 40-49) -/

/-- `wasip2::clocks::wall_clock::Datetime`: `seconds : u64`,
`nanoseconds : u32`. -/
structure Datetime where
  seconds : Nat
  nanoseconds : Nat
deriving DecidableEq, Repr

/-- `wstd::time::Duration` as produced by `Duration::new(secs, nanos)`.
Modelled from the spec: `src/time/duration.rs` is not part of the sources
under verification; §4.10 of the spec describes `Duration` only as a value
backed by the clocks, so `Duration::new` is modelled as the record
constructor pairing its two arguments. -/
structure Duration where
  seconds : Nat
  nanoseconds : Nat
deriving DecidableEq, Repr

def Duration.new (secs nanos : Nat) : Duration := ⟨secs, nanos⟩

structure SystemTimeError
deriving DecidableEq, Repr

def SystemTime.duration_since (t earlier : Datetime) :
    Except SystemTimeError Duration :=
  if t.seconds ≥ earlier.seconds ∧ t.nanoseconds ≥ earlier.nanoseconds then
    .ok (Duration.new (t.seconds - earlier.seconds)
      (t.nanoseconds - earlier.nanoseconds))
  else
    .error ⟨⟩

/-! ## The HTTP `Body` data model (src/http/body.rs) -/

/-- `http_body::Frame<Bytes>`: one unit of body transmission. -/
inductive Frame
  | data (bs : List Nat)
  | trailers (t : HeaderMap)
deriving DecidableEq, Repr

/-- `http_body::SizeHint` of the external `http-body` crate: a lower bound
and an optional upper bound. -/
structure SizeHint where
  lower : Nat
  upper : Option Nat
deriving DecidableEq, Repr

/-- `SizeHint::exact`: the hint is exact when the upper bound equals the
lower bound. -/
def SizeHint.exact (s : SizeHint) : Option Nat :=
  if s.upper = some s.lower then s.upper else none

/-- `BodyHint` (src/http/body.rs lines 366-370). -/
inductive BodyHint
  | contentLength (n : Nat)
  | unknown
deriving DecidableEq, Repr

/-- `BodyHint::content_length` (src/http/body.rs lines 384-389). -/
def BodyHint.content_length : BodyHint → Option Nat
  | .contentLength l => some l
  | .unknown => none

structure InvalidContentLength
deriving DecidableEq, Repr

/-- `headers.get(CONTENT_LENGTH)` on the `http` crate's `HeaderMap`: the
first value stored under the (lowercase) name. The value is modelled as a
`String`; `HeaderValue` stores bytes, and a value that is not valid UTF-8 is
unparseable exactly like a non-numeric string, so the distinction does not
affect any verified path. -/
def headerMapGet (headers : HeaderMap) (name : String) : Option String :=
  (headers.find? (fun kv => kv.1 == name)).map (·.2)

/-- Rust's `str::parse::<u64>()`: an optional leading `+`, then one or more
ASCII digits, with the value required to fit in 64 bits. -/
def parseU64 (s : String) : Option Nat :=
  let digits := match s.data with
    | '+' :: rest => rest
    | cs => cs
  if digits ≠ [] ∧ digits.all Char.isDigit then
    let v := digits.foldl (fun acc c => acc * 10 + (c.toNat - 48)) 0
    if v < 2 ^ 64 then some v else none
  else
    none

/-- `BodyHint::from_headers` (src/http/body.rs lines 373-383): reads the
`content-length` header; absent means `Unknown`; present and parseable means
`ContentLength(n)`; present but unparseable is the error
`InvalidContentLength`. -/
def BodyHint.from_headers (headers : HeaderMap) :
    Except InvalidContentLength BodyHint :=
  match headerMapGet headers "content-length" with
  | some val =>
    match parseU64 val with
    | some len => .ok (.contentLength len)
    | none => .error ⟨⟩
  | none => .ok .unknown

/-- `BodyInner` (src/http/body.rs lines 59-70).  Each variant carries the
observable behavior of the host resources it owns:
* `boxed`: the frame sequence the boxed `http_body::Body` produces (`.error`
  for a poll that yields `Some(Err(_))`, the list end for `None`), plus its
  `size_hint()`;
* `incoming`: the successive results of host reads on the incoming body's
  stream, the eventual `FutureTrailers` result
  (`Ok(Ok(trailers_option))` / `Ok(Err(code))` after readiness), and the
  stored `BodyHint`;
* `complete`: bytes and optional trailers held in memory. -/
inductive BodyInner
  | boxed (frames : List (Except Error Frame)) (hint : SizeHint)
  | incoming (reads : List (Except StreamError (List Nat)))
      (trailersGet : Except ErrorCode (Option Fields)) (size_hint : BodyHint)
  | complete (data : List Nat) (trailers : Option HeaderMap)
deriving Repr

/-- `Body::content_length` (src/http/body.rs lines 179-185). -/
def Body.content_length : BodyInner → Option Nat
  | .boxed _ hint => hint.exact
  | .complete data _ => some data.length
  | .incoming _ _ h => h.content_length

/-! ## `Body::send` (src/http/body.rs lines 73-123 and 336-363)

The host calls `send` performs besides polling the body are collected in a
`SendHost` oracle.  The outcome records the returned `Result`, whether
`WasiOutgoingBody::finish` was invoked, and with which trailers argument. -/

/-- Host-side oracle for `Body::send`:
* `writeAll bs` — result of `out_stream.write_all(&bs)`;
* `toWasi t` — result of `header_map_to_wasi(&t)` (the host `Fields::append`
  validation can reject a header);
* `finish` — result of `WasiOutgoingBody::finish(..)` (called at most once);
* `copy` — result of `in_stream.copy_to(&out_stream)` on the incoming fast
  path. -/
structure SendHost where
  writeAll : List Nat → Except IOErr Unit
  toWasi : HeaderMap → Except Error Fields
  finish : Except ErrorCode Unit
  copy : Except IOErr Nat

/-- Outcome of `Body::send`: result, whether the outgoing body was finished,
and the trailers passed to `finish` when it was called. -/
structure SendOutcome where
  result : Except Error Unit
  finishCalled : Bool
  finishArg : Option Fields
deriving Repr

/-- The `BodyInner::Boxed` send loop (src/http/body.rs lines 84-105),
carrying the most recently converted trailer frame. -/
def Body.sendBoxedLoop (h : SendHost) (tr : Option Fields) :
    List (Except Error Frame) → SendOutcome
  | [] =>
    -- frame source complete: drop the stream child, finish the outgoing body
    match h.finish with
    | .ok () => ⟨.ok (), true, tr⟩
    | .error e => ⟨.error (.context "finishing outgoing body" (.code e)), true, tr⟩
  | .ok (.data bs) :: rest =>
    match h.writeAll bs with
    | .ok () => Body.sendBoxedLoop h tr rest
    | .error e => ⟨.error (.io e), false, none⟩
  | .ok (.trailers t) :: rest =>
    match h.toWasi t with
    | .ok f => Body.sendBoxedLoop h (some f) rest
    | .error e => ⟨.error (.context "outoging trailers to wasi" e), false, none⟩
  | .error e :: _ => ⟨.error (.context "sending outgoing body" e), false, none⟩

/-- The `BodyInner::Complete` arm of `Body::send`
(src/http/body.rs lines 107-121). -/
def Body.sendComplete (h : SendHost) (data : List Nat)
    (trailers : Option HeaderMap) : SendOutcome :=
  match h.writeAll data with
  | .error e => ⟨.error (.io e), false, none⟩
  | .ok () =>
    match (match trailers with
           | none => Except.ok none
           | some t => (h.toWasi t).map some) with
    | .error e => ⟨.error (.context "trailers" e), false, none⟩
    | .ok tf =>
      match h.finish with
      | .ok () => ⟨.ok (), true, tf⟩
      | .error e => ⟨.error (.context "finishing outgoing body" (.code e)), true, tf⟩

/-- `Incoming::send` (src/http/body.rs lines 336-363): splice the incoming
stream into the outgoing stream, await the incoming trailers, then finish the
outgoing body forwarding them. -/
def Incoming.send (h : SendHost)
    (trailersGet : Except ErrorCode (Option Fields)) : SendOutcome :=
  match h.copy with
  | .error e =>
    ⟨.error (.context "copying incoming body stream to outgoing body stream" (.io e)),
      false, none⟩
  | .ok _written =>
    match trailersGet with
    | .error e => ⟨.error (.context "recieving incoming trailers" (.code e)), false, none⟩
    | .ok inTrailers =>
      match h.finish with
      | .ok () => ⟨.ok (), true, inTrailers⟩
      | .error e =>
        ⟨.error (.context "finishing outgoing body" (.code e)), true, inTrailers⟩

/-- `Body::send` (src/http/body.rs lines 73-123), dispatching on the
variant. -/
def Body.send (h : SendHost) : BodyInner → SendOutcome
  | .boxed frames _ => Body.sendBoxedLoop h none frames
  | .incoming _ tg _ => Incoming.send h tg
  | .complete data tr => Body.sendComplete h data tr

/-! ## `IncomingBody::poll_frame` (src/http/body.rs lines 424-547)

The full sequence of items the two-state decoder yields, as a function of
the host oracles: `reads` are the successive results of
`self.stream.read(MAX_FRAME_SIZE)` in the `Body` state, `trailersGet` is the
eventual result of the `FutureTrailers` obtained from
`WasiIncomingBody::finish` once the stream closes, and `fromWasi` models
`header_map_from_wasi` (header-name/value validation can fail).  An
exhausted `reads` oracle models a stream that stays pending forever: the
item sequence simply ends without trailers. -/

/-- Items yielded by the `Trailers` state (`TrailersState::poll_frame`,
src/http/body.rs lines 566-608): at most one. -/
def trailerFrames (fromWasi : Fields → Except Error HeaderMap) :
    Except ErrorCode (Option Fields) → List (Except Error Frame)
  | .ok (some f) =>
    match fromWasi f with
    | .ok hm => [.ok (.trailers hm)]
    | .error e => [.error (.context "decoding incoming body trailers" e)]
  | .ok none => []
  | .error e => [.error (.context "reading incoming body trailers" (.code e))]

/-- The item sequence produced by `IncomingBody::poll_frame`: data frames and
read-error items while in the `Body` state, then — once the host read
returns `Closed` — the items of the `Trailers` state, after which the state
is dropped (`is_end_stream` becomes true) and every further poll returns
`None`. -/
def IncomingBody.frames (fromWasi : Fields → Except Error HeaderMap)
    (trailersGet : Except ErrorCode (Option Fields)) :
    List (Except StreamError (List Nat)) → List (Except Error Frame)
  | [] => []
  | r :: rest =>
    match r with
    | .ok bs =>
      if bs.isEmpty then
        -- empty read: subscribe, await readiness once, retry
        IncomingBody.frames fromWasi trailersGet rest
      else
        .ok (.data bs) :: IncomingBody.frames fromWasi trailersGet rest
    | .error .closed => trailerFrames fromWasi trailersGet
    | .error (.lastOperationFailed m) =>
      .error (.context "reading incoming body stream" (.msg m)) ::
        IncomingBody.frames fromWasi trailersGet rest

/-- Whether an item yielded by a frame source is a trailers frame. -/
def isTrailersItem : Except Error Frame → Bool
  | .ok (.trailers _) => true
  | _ => false

/-! ## `Body::contents` (src/http/body.rs lines 146-172) -/

/-- `http::HeaderMap::extend(other)`: keys present in `other` replace the
values previously stored under them, other entries are kept. -/
def extendHeaders (t1 t2 : HeaderMap) : HeaderMap :=
  t1.filter (fun kv => ¬ t2.any (fun kv2 => kv2.1 == kv.1)) ++ t2

/-- `http_body_util::BodyExt::collect` over a frame sequence: concatenates
the data frames and accumulates trailer frames (later trailer maps extend
earlier ones); the first error item aborts the collection. -/
def collectFrames : List (Except Error Frame) → Except Error (List Nat × Option HeaderMap)
  | [] => .ok ([], none)
  | .error e :: _ => .error e
  | .ok (.data bs) :: rest =>
    (collectFrames rest).map (fun dt => (bs ++ dt.1, dt.2))
  | .ok (.trailers tm) :: rest =>
    (collectFrames rest).map (fun dt =>
      (dt.1, some (match dt.2 with
                   | none => tm
                   | some t2 => extendHeaders tm t2)))

/-- Collecting a `BodyInner` into memory: the boxed variant collects its own
frames; the incoming variant is first adapted through
`Incoming::into_http_body`, so it collects the `IncomingBody::poll_frame`
sequence. -/
def Body.collect (fromWasi : Fields → Except Error HeaderMap) :
    BodyInner → Except Error (List Nat × Option HeaderMap)
  | .boxed frames _ => collectFrames frames
  | .incoming reads tg _ => collectFrames (IncomingBody.frames fromWasi tg reads)
  | .complete data tr => .ok (data, tr)

/-- Whether a `BodyInner` is the in-memory variant. -/
def BodyInner.isComplete : BodyInner → Bool
  | .complete _ _ => true
  | _ => false

/-- `Body::contents` (src/http/body.rs lines 146-172) as a state
transformer: returns the produced `Result<&[u8]>` and the `BodyInner` left
in place.  A non-complete variant is first swapped out for an empty
`Complete` body, then collected; on success the collected data and trailers
are stored back, on error the swapped-in empty body remains. -/
def Body.contents (fromWasi : Fields → Except Error HeaderMap) :
    BodyInner → Except Error (List Nat) × BodyInner
  | .complete data tr => (.ok data, .complete data tr)
  | .boxed frames _hint =>
    match collectFrames frames with
    | .ok (data, tr) => (.ok data, .complete data tr)
    | .error e => (.error e, .complete [] none)
  | .incoming reads tg _hint =>
    match collectFrames (IncomingBody.frames fromWasi tg reads) with
    | .ok (data, tr) => (.ok data, .complete data tr)
    | .error e => (.error e, .complete [] none)

/-! ## `Responder::fail` (src/http/server.rs lines 80-87) -/

/-- `Responder::fail`: the first component is the value passed to
`ResponseOutparam::set` (always an `Err` of a host error code), the second is
the function's return value. -/
def Responder.fail (err : Error) : Except ErrorCode Unit × Except Error Unit :=
  let e := match err.downcastErrorCode with
    | some c => c
    | none => .internalError (some err.debugString)
  (.error e, .error err)

end Wstd

namespace Wstd

/-- **C1.** `AsyncInputStream::read`: a terminal `Closed` host read returns
`Ok(0)` leaving `buf` untouched; an empty non-closed host read does not
return but loops through readiness and retries the host read;
`LastOperationFailed(err)` returns an I/O error carrying the host debug
string; a non-empty host read copies the bytes into the front of `buf` and
returns their length. -/
theorem asyncInputStream_read_cases (rest : List (Except StreamError (List Nat)))
    (buf : List Nat) (m : String) (bs : List Nat) :
    (AsyncInputStream.read (.error .closed :: rest) buf = some (.ok (0, buf))) ∧
    (AsyncInputStream.read (.ok [] :: rest) buf = AsyncInputStream.read rest buf) ∧
    (AsyncInputStream.read (.error (.lastOperationFailed m) :: rest) buf
      = some (.error (.other m))) ∧
    (bs ≠ [] →
      AsyncInputStream.read (.ok bs :: rest) buf
        = some (.ok (bs.length, bs ++ buf.drop bs.length))) := by
  refine ⟨rfl, rfl, rfl, fun h => ?_⟩
  simp [AsyncInputStream.read, h]

theorem asyncInputStream_read_cases_witness :
    AsyncInputStream.read [.ok [7, 8]] [0, 0, 0] = some (.ok (2, [7, 8, 0])) := by
  have h := asyncInputStream_read_cases [] [0, 0, 0] "boom" [7, 8]
  exact h.2.2.2 (by decide)

/-- **C2.** `AsyncOutputStream::write`: a `check_write` of 0 awaits readiness
and retries (in particular a 0 followed by a positive `k` results in exactly
one retry that performs the write); a positive `k` issues one host write of
the first `min(k, buf.len())` bytes and returns that count; `Closed` from
either `check_write` or `write` maps to a connection-reset error;
`LastOperationFailed` maps to an error carrying the host debug string. -/
theorem asyncOutputStream_write_cases (rest : List (Except StreamError Nat))
    (w : Except StreamError Unit) (buf : List Nat) (k : Nat) (m : String) :
    (AsyncOutputStream.write (.ok 0 :: rest) w buf
      = AsyncOutputStream.write rest w buf) ∧
    (0 < k →
      AsyncOutputStream.write (.ok 0 :: .ok k :: rest) (.ok ()) buf
        = some (.ok (min k buf.length, buf.take (min k buf.length)))) ∧
    (0 < k →
      AsyncOutputStream.write (.ok k :: rest) (.ok ()) buf
        = some (.ok (min k buf.length, buf.take (min k buf.length)))) ∧
    (0 < k →
      AsyncOutputStream.write (.ok k :: rest) (.error .closed) buf
        = some (.error .connectionReset)) ∧
    (0 < k →
      AsyncOutputStream.write (.ok k :: rest) (.error (.lastOperationFailed m)) buf
        = some (.error (.other m))) ∧
    (AsyncOutputStream.write (.error .closed :: rest) w buf
      = some (.error .connectionReset)) ∧
    (AsyncOutputStream.write (.error (.lastOperationFailed m) :: rest) w buf
      = some (.error (.other m))) := by
  refine ⟨rfl, ?_, ?_, ?_, ?_, rfl, rfl⟩ <;>
    rintro hk <;>
    obtain ⟨k, rfl⟩ := Nat.exists_eq_add_of_lt hk <;>
    simp [AsyncOutputStream.write]

theorem asyncOutputStream_write_cases_witness :
    AsyncOutputStream.write [.ok 0, .ok 2] (.ok ()) [1, 2, 3]
      = some (.ok (2, [1, 2])) := by
  have h := asyncOutputStream_write_cases [.ok 2] (.ok ()) [1, 2, 3] 2 "boom"
  have h2 := h.2.1 (by decide)
  simpa using h2

/-- **C5.** `block_on`: when the process-wide reactor singleton is already
set, `block_on` panics before ever running the future; when it is unset, it
installs a fresh reactor as the singleton on entry, runs the future to
completion, and clears the singleton on exit. -/
theorem block_on_reentrancy {α : Type} (prev : Option Nat) (fresh : Nat)
    (fut : Unit → α) :
    (prev.isSome →
      block_on prev fresh fut
        = ⟨some fresh, false,
            .error "cannot wstd::runtime::block_on inside an existing block_on!"⟩) ∧
    (prev = none →
      block_on prev fresh fut = ⟨some fresh, true, .ok (fut (), none)⟩) := by
  constructor
  · intro h
    simp [block_on, h]
  · intro h
    simp [block_on, h]

theorem block_on_reentrancy_witness :
    block_on (α := Nat) (some 0) 1 (fun _ => 42)
        = ⟨some 1, false,
            .error "cannot wstd::runtime::block_on inside an existing block_on!"⟩ ∧
    block_on (α := Nat) none 1 (fun _ => 42)
        = ⟨some 1, true, .ok (42, none)⟩ :=
  ⟨(block_on_reentrancy (some 0) 1 (fun _ => 42)).1 rfl,
   (block_on_reentrancy none 1 (fun _ => 42)).2 rfl⟩

/-- **C10.** `SystemTime::duration_since` succeeds exactly when both
components are at least those of the earlier time, in which case it returns
`Duration::new` of the component-wise differences; in particular a time that
is strictly later in real time but has a smaller nanoseconds component
(`{seconds := 1, nanoseconds := 0}` against `{seconds := 0, nanoseconds := 5}`)
yields `Err(SystemTimeError)` rather than the positive difference. -/
theorem systemTime_duration_since_spec (t e : Datetime) :
    ((∃ d, SystemTime.duration_since t e = .ok d) ↔
      (e.seconds ≤ t.seconds ∧ e.nanoseconds ≤ t.nanoseconds)) ∧
    (e.seconds ≤ t.seconds → e.nanoseconds ≤ t.nanoseconds →
      SystemTime.duration_since t e
        = .ok (Duration.new (t.seconds - e.seconds)
            (t.nanoseconds - e.nanoseconds))) ∧
    (SystemTime.duration_since ⟨1, 0⟩ ⟨0, 5⟩ = .error ⟨⟩) := by
  refine ⟨?_, ?_, rfl⟩
  · constructor
    · rintro ⟨d, hd⟩
      rw [SystemTime.duration_since] at hd
      split at hd
      · next h => exact ⟨h.1, h.2⟩
      · exact absurd hd (by simp)
    · rintro ⟨h1, h2⟩
      exact ⟨_, by rw [SystemTime.duration_since, if_pos ⟨h1, h2⟩]⟩
  · intro h1 h2
    rw [SystemTime.duration_since, if_pos ⟨h1, h2⟩]

theorem systemTime_duration_since_spec_witness :
    SystemTime.duration_since ⟨3, 7⟩ ⟨1, 2⟩ = .ok (Duration.new 2 5) :=
  (systemTime_duration_since_spec ⟨3, 7⟩ ⟨1, 2⟩).2.1 (by decide) (by decide)

/-- **C6.** `Body::content_length` returns `Some(n)` only when the length is
exactly known: the stored length for an in-memory body, the hinted length for
an incoming body with hint `ContentLength(n)`, `None` for an incoming body
with hint `Unknown`, and for a boxed body exactly the boxed frame source's
exact size hint. -/
theorem body_content_length_spec (frames : List (Except Error Frame))
    (sh : SizeHint) (reads : List (Except StreamError (List Nat)))
    (tg : Except ErrorCode (Option Fields)) (data : List Nat)
    (tr : Option HeaderMap) (hn : Nat) :
    (Body.content_length (.complete data tr) = some data.length) ∧
    (Body.content_length (.incoming reads tg (.contentLength hn)) = some hn) ∧
    (Body.content_length (.incoming reads tg .unknown) = none) ∧
    (∀ m, Body.content_length (.boxed frames sh) = some m ↔ sh.exact = some m) :=
  ⟨rfl, rfl, rfl, fun _ => Iff.rfl⟩

/-- **C7 counterexample.** A present but unparseable `Content-Length` value
makes `BodyHint::from_headers` return `Err(InvalidContentLength)`, not the
`Unknown` hint the claim asserts. -/
theorem bodyHint_from_headers_unparseable_counterexample :
    BodyHint.from_headers [("content-length", "abc")] = .error ⟨⟩ ∧
    BodyHint.from_headers [("content-length", "abc")] ≠ .ok .unknown := by
  refine ⟨rfl, fun h => ?_⟩
  rw [show BodyHint.from_headers [("content-length", "abc")] = .error ⟨⟩ from rfl] at h
  exact Except.noConfusion h

/-- **C7 amended.** The body size hint is `ContentLength(n)` when a
`Content-Length` header is present and parseable as `n`, `Unknown` when the
header is absent, and a present but unparseable value is the failure
`Err(InvalidContentLength)` rather than the `Unknown` hint. -/
theorem bodyHint_from_headers_spec (headers : HeaderMap) :
    (∀ v n, headerMapGet headers "content-length" = some v →
      parseU64 v = some n →
      BodyHint.from_headers headers = .ok (.contentLength n)) ∧
    (∀ v, headerMapGet headers "content-length" = some v →
      parseU64 v = none →
      BodyHint.from_headers headers = .error ⟨⟩) ∧
    (headerMapGet headers "content-length" = none →
      BodyHint.from_headers headers = .ok .unknown) := by
  refine ⟨fun v n hget hparse => ?_, fun v hget hparse => ?_, fun hget => ?_⟩ <;>
    simp [BodyHint.from_headers, hget] <;>
    simp [hparse]

theorem bodyHint_from_headers_spec_witness :
    BodyHint.from_headers [("content-length", "42")] = .ok (.contentLength 42) :=
  (bodyHint_from_headers_spec [("content-length", "42")]).1 "42" 42
    (by decide) (by decide)

/-- **C9.** `Responder::fail(err)` sets the response outparam to `Err(code)`
where `code` is the host error code found by downcasting `err`'s chain when
one is present, and `InternalError(Some(msg))` with `err`'s debug string
otherwise; in both cases it returns the original error. -/
theorem responder_fail_spec (err : Error) :
    (∀ c, err.downcastErrorCode = some c →
      Responder.fail err = (.error c, .error err)) ∧
    (err.downcastErrorCode = none →
      Responder.fail err
        = (.error (.internalError (some err.debugString)), .error err)) := by
  refine ⟨fun c hc => ?_, fun hc => ?_⟩ <;> simp [Responder.fail, hc]

/-- Auxiliary for C3: the `Boxed` send loop finishes the outgoing body
exactly when it succeeds, or when the error is the one produced by the
failing `finish` call itself. -/
theorem sendBoxedLoop_finish_aux (h : SendHost) (tr : Option Fields)
    (frames : List (Except Error Frame)) :
    ((Body.sendBoxedLoop h tr frames).result = .ok () →
      (Body.sendBoxedLoop h tr frames).finishCalled = true) ∧
    (∀ e, (Body.sendBoxedLoop h tr frames).result = .error e →
      (Body.sendBoxedLoop h tr frames).finishCalled = true →
      ∃ c, e = .context "finishing outgoing body" (.code c)) := by
  induction frames generalizing tr with
  | nil =>
    cases hf : h.finish with
    | ok u =>
      cases u
      refine ⟨fun _ => ?_, fun e he _ => ?_⟩
      · simp [Body.sendBoxedLoop, hf]
      · simp [Body.sendBoxedLoop, hf] at he
    | error e0 =>
      refine ⟨fun hres => ?_, fun e he _ => ?_⟩
      · simp [Body.sendBoxedLoop, hf] at hres
      · simp [Body.sendBoxedLoop, hf] at he
        exact ⟨e0, he.symm⟩
  | cons f rest ih =>
    cases f with
    | error e0 =>
      refine ⟨fun hres => ?_, fun e he hc => ?_⟩
      · simp [Body.sendBoxedLoop] at hres
      · simp [Body.sendBoxedLoop] at hc
    | ok fr =>
      cases fr with
      | data bs =>
        cases hw : h.writeAll bs with
        | ok u =>
          cases u
          refine ⟨fun hres => ?_, fun e he hc => ?_⟩
          · simp only [Body.sendBoxedLoop, hw] at hres ⊢
            exact (ih tr).1 hres
          · simp only [Body.sendBoxedLoop, hw] at he hc
            exact (ih tr).2 e he hc
        | error e0 =>
          refine ⟨fun hres => ?_, fun e he hc => ?_⟩
          · simp [Body.sendBoxedLoop, hw] at hres
          · simp [Body.sendBoxedLoop, hw] at hc
      | trailers t =>
        cases hw : h.toWasi t with
        | ok f2 =>
          refine ⟨fun hres => ?_, fun e he hc => ?_⟩
          · simp only [Body.sendBoxedLoop, hw] at hres ⊢
            exact (ih (some f2)).1 hres
          · simp only [Body.sendBoxedLoop, hw] at he hc
            exact (ih (some f2)).2 e he hc
        | error e0 =>
          refine ⟨fun hres => ?_, fun e he hc => ?_⟩
          · simp [Body.sendBoxedLoop, hw] at hres
          · simp [Body.sendBoxedLoop, hw] at hc

/-- **C3.** `Body::send` calls the host `finish` on the outgoing body exactly
on the success path; on every error path other than a failure of the `finish`
call itself — a write failure, a frame error, a trailer conversion failure,
or a copy failure — `send` returns the error with the outgoing body left
unfinished. -/
theorem body_send_finish_spec (h : SendHost) (inner : BodyInner) :
    ((Body.send h inner).result = .ok () →
      (Body.send h inner).finishCalled = true) ∧
    (∀ e, (Body.send h inner).result = .error e →
      (Body.send h inner).finishCalled = true →
      ∃ c, e = .context "finishing outgoing body" (.code c)) ∧
    (∀ e, (Body.send h inner).result = .error e →
      (∀ c, e ≠ .context "finishing outgoing body" (.code c)) →
      (Body.send h inner).finishCalled = false) := by
  have main : ((Body.send h inner).result = .ok () →
      (Body.send h inner).finishCalled = true) ∧
      (∀ e, (Body.send h inner).result = .error e →
        (Body.send h inner).finishCalled = true →
        ∃ c, e = .context "finishing outgoing body" (.code c)) := by
    cases inner with
    | boxed frames hint =>
      exact sendBoxedLoop_finish_aux h none frames
    | incoming reads tg sh =>
      cases hcp : h.copy with
      | error e0 =>
        refine ⟨fun hres => ?_, fun e he hc => ?_⟩
        · simp [Body.send, Incoming.send, hcp] at hres
        · simp [Body.send, Incoming.send, hcp] at hc
      | ok n =>
        cases tg with
        | error e0 =>
          refine ⟨fun hres => ?_, fun e he hc => ?_⟩
          · simp [Body.send, Incoming.send, hcp] at hres
          · simp [Body.send, Incoming.send, hcp] at hc
        | ok tf =>
          cases hf : h.finish with
          | ok u =>
            cases u
            refine ⟨fun _ => ?_, fun e he _ => ?_⟩
            · simp [Body.send, Incoming.send, hcp, hf]
            · simp [Body.send, Incoming.send, hcp, hf] at he
          | error e0 =>
            refine ⟨fun hres => ?_, fun e he _ => ?_⟩
            · simp [Body.send, Incoming.send, hcp, hf] at hres
            · simp [Body.send, Incoming.send, hcp, hf] at he
              exact ⟨e0, he.symm⟩
    | complete data tr =>
      cases hw : h.writeAll data with
      | error e0 =>
        refine ⟨fun hres => ?_, fun e he hc => ?_⟩
        · simp [Body.send, Body.sendComplete, hw] at hres
        · simp [Body.send, Body.sendComplete, hw] at hc
      | ok u =>
        cases u
        cases htr : (match tr with
                     | none => Except.ok none
                     | some t => (h.toWasi t).map some) with
        | error e0 =>
          refine ⟨fun hres => ?_, fun e he hc => ?_⟩
          · simp [Body.send, Body.sendComplete, hw, htr] at hres
          · simp [Body.send, Body.sendComplete, hw, htr] at hc
        | ok tf =>
          cases hf : h.finish with
          | ok u =>
            cases u
            refine ⟨fun _ => ?_, fun e he _ => ?_⟩
            · simp [Body.send, Body.sendComplete, hw, htr, hf]
            · simp [Body.send, Body.sendComplete, hw, htr, hf] at he
          | error e0 =>
            refine ⟨fun hres => ?_, fun e he _ => ?_⟩
            · simp [Body.send, Body.sendComplete, hw, htr, hf] at hres
            · simp [Body.send, Body.sendComplete, hw, htr, hf] at he
              exact ⟨e0, he.symm⟩
  refine ⟨main.1, main.2, fun e he hne => ?_⟩
  cases hfc : (Body.send h inner).finishCalled with
  | false => rfl
  | true =>
    obtain ⟨c, hcex⟩ := main.2 e he hfc
    exact absurd hcex (hne c)

theorem body_send_finish_spec_witness :
    (Body.send ⟨fun _ => .ok (), fun t => .ok t, .ok (), .ok 0⟩
      (.complete [1, 2] none)).finishCalled = true :=
  (body_send_finish_spec ⟨fun _ => .ok (), fun t => .ok t, .ok (), .ok 0⟩
    (.complete [1, 2] none)).1 rfl

/-- Auxiliary for C4: the `Trailers` state yields at most one item. -/
theorem trailerFrames_length_le (fw : Fields → Except Error HeaderMap)
    (tg : Except ErrorCode (Option Fields)) :
    (trailerFrames fw tg).length ≤ 1 := by
  cases tg with
  | error e => simp [trailerFrames]
  | ok o =>
    cases o with
    | none => simp [trailerFrames]
    | some f => cases hf : fw f <;> simp [trailerFrames, hf]

/-- **C4.** In the item sequence produced by `IncomingBody::poll_frame`, a
trailers frame is only ever the final item: every item before it is a data
frame or an error item, at most one trailers frame occurs, and nothing — in
particular no data frame — follows it. -/
theorem incomingBody_frames_trailers_terminal
    (fw : Fields → Except Error HeaderMap)
    (tg : Except ErrorCode (Option Fields))
    (reads : List (Except StreamError (List Nat)))
    (l₁ l₂ : List (Except Error Frame)) (x : Except Error Frame)
    (heq : IncomingBody.frames fw tg reads = l₁ ++ x :: l₂)
    (ht : isTrailersItem x = true) : l₂ = [] := by
  induction reads generalizing l₁ with
  | nil => simp [IncomingBody.frames] at heq
  | cons r rest ih =>
    cases r with
    | ok bs =>
      cases hbs : bs.isEmpty with
      | true =>
        rw [IncomingBody.frames] at heq
        simp only [hbs, if_true] at heq
        exact ih l₁ heq
      | false =>
        rw [IncomingBody.frames] at heq
        simp only [hbs] at heq
        cases l₁ with
        | nil =>
          rw [List.nil_append] at heq
          injection heq with h1 _
          rw [← h1] at ht
          simp [isTrailersItem] at ht
        | cons a l₁ =>
          rw [List.cons_append] at heq
          injection heq with _ h2
          exact ih l₁ h2
    | error se =>
      cases se with
      | closed =>
        rw [IncomingBody.frames] at heq
        have hl := trailerFrames_length_le fw tg
        rw [heq] at hl
        simp only [List.length_append, List.length_cons] at hl
        exact List.eq_nil_of_length_eq_zero (by omega)
      | lastOperationFailed m =>
        rw [IncomingBody.frames] at heq
        cases l₁ with
        | nil =>
          rw [List.nil_append] at heq
          injection heq with h1 _
          rw [← h1] at ht
          simp [isTrailersItem] at ht
        | cons a l₁ =>
          rw [List.cons_append] at heq
          injection heq with _ h2
          exact ih l₁ h2

theorem incomingBody_frames_trailers_terminal_witness :
    IncomingBody.frames (fun f => .ok f) (.ok (some [("k", "v")]))
        [.ok [1], .error .closed]
      = [.ok (.data [1]), .ok (.trailers [("k", "v")])] ∧
    ([] : List (Except Error Frame)) = [] :=
  ⟨rfl,
   incomingBody_frames_trailers_terminal (fun f => .ok f)
     (.ok (some [("k", "v")])) [.ok [1], .error .closed]
     [.ok (.data [1])] [] (.ok (.trailers [("k", "v")])) rfl rfl⟩

/-- **C8.** The first successful `Body::contents` call consumes the body into
the in-memory variant in place — storing exactly the collected bytes and any
trailers the source produced — and returns the collected bytes; afterwards
every further call returns the same cached bytes and leaves the body
unchanged. -/
theorem body_contents_spec (fw : Fields → Except Error HeaderMap)
    (inner : BodyInner) (data : List Nat) :
    ((Body.contents fw inner).1 = .ok data →
      Body.contents fw (Body.contents fw inner).2
        = (.ok data, (Body.contents fw inner).2)) ∧
    (∀ d t, inner.isComplete = false → Body.collect fw inner = .ok (d, t) →
      Body.contents fw inner = (.ok d, .complete d t)) := by
  cases inner with
  | complete d0 t0 =>
    refine ⟨fun hres => ?_, fun d t hic _ => ?_⟩
    · simp only [Body.contents] at hres ⊢
      simp at hres
      rw [hres]
    · simp [BodyInner.isComplete] at hic
  | boxed frames hint =>
    cases hc : collectFrames frames with
    | ok dt =>
      obtain ⟨d0, t0⟩ := dt
      refine ⟨fun hres => ?_, fun d t _ hcoll => ?_⟩
      · simp only [Body.contents, hc] at hres ⊢
        simp at hres
        rw [hres]
      · simp only [Body.collect, hc] at hcoll
        simp at hcoll
        simp only [Body.contents, hc, hcoll.1, hcoll.2]
    | error e =>
      refine ⟨fun hres => ?_, fun d t _ hcoll => ?_⟩
      · simp [Body.contents, hc] at hres
      · simp [Body.collect, hc] at hcoll
  | incoming reads tg sh =>
    cases hc : collectFrames (IncomingBody.frames fw tg reads) with
    | ok dt =>
      obtain ⟨d0, t0⟩ := dt
      refine ⟨fun hres => ?_, fun d t _ hcoll => ?_⟩
      · simp only [Body.contents, hc] at hres ⊢
        simp at hres
        rw [hres]
      · simp only [Body.collect, hc] at hcoll
        simp at hcoll
        simp only [Body.contents, hc, hcoll.1, hcoll.2]
    | error e =>
      refine ⟨fun hres => ?_, fun d t _ hcoll => ?_⟩
      · simp [Body.contents, hc] at hres
      · simp [Body.collect, hc] at hcoll

theorem body_contents_spec_witness :
    Body.contents (fun f => .ok f)
        (.boxed [.ok (.data [1]), .ok (.trailers [("k", "v")])] ⟨0, none⟩)
      = (.ok [1], .complete [1] (some [("k", "v")])) :=
  (body_contents_spec (fun f => .ok f)
      (.boxed [.ok (.data [1]), .ok (.trailers [("k", "v")])] ⟨0, none⟩) [1]).2
    [1] (some [("k", "v")]) rfl rfl

theorem responder_fail_spec_witness :
    Responder.fail (.context "ctx" (.code .httpProtocolError))
      = (.error .httpProtocolError, .error (.context "ctx" (.code .httpProtocolError))) ∧
    Responder.fail (.msg "boom")
      = (.error (.internalError (some "boom")), .error (.msg "boom")) :=
  ⟨(responder_fail_spec (.context "ctx" (.code .httpProtocolError))).1
      .httpProtocolError rfl,
   (responder_fail_spec (.msg "boom")).2 rfl⟩

end Wstd
